import Mathlib

/-!
Shallow embedding of the circular byte-buffer in `src/client/c/sgs_buffer.c`
(struct `sgs_buffer_impl` from `src/client/c/impl/sgs_buffer_impl.h`).

The C struct holds `capacity`, `position`, `size` (all `size_t`) and a
backing array `buf` of `capacity` bytes.  We model `size_t` values as `Nat`
(all the arithmetic the code performs on them — `+`, `-`, `%` — stays far
below any overflow boundary for the inputs considered, and the code never
subtracts below zero on the paths it takes), bytes as `Nat`, and the backing
array as a `List Nat` of length `capacity`.

Functions returning `int` (`0` on success, `-1` on failure) are modelled as
returning an `Int` result component alongside the caller-visible memory they
touch (the `dst` scratch area of `peek`/`read`, the mutated buffer struct).
The stream descriptor consumed by `sgs_buffer_read_from_fd` /
`sgs_buffer_write_to_fd` is modelled as a trace: a list holding one response
of the endpoint per loop iteration.  The loops themselves are modelled with
explicit fuel; `none` means the loop did not return within `fuel` iterations
(or the trace was exhausted while the loop still wanted another transfer,
i.e. the C call would still be blocked inside `read`/`write`).

To reason about memory safety we additionally compute, for each copy an
operation performs, the exact list of backing-array indices the `memcpy`
calls in the C code touch (`bufRange`, `peekReadIndices`,
`writeWriteIndices`): the C code reads/writes `buf[i]` exactly for the `i`
in those lists.  Reads of the backing array are modelled with `List.getD`
(out-of-range reads yield the junk value `0`; in C they read unspecified
out-of-bounds memory), writes with `List.set` (out-of-range writes are
dropped; in C they corrupt unrelated memory).
-/

/-- Lean image of `struct sgs_buffer_impl`. -/
structure SgsBuffer where
  capacity : Nat
  position : Nat
  size : Nat
  buf : List Nat
deriving Repr, DecidableEq

/-- Field reader `sgs_buffer_capacity`. -/
def sgs_buffer_capacity (b : SgsBuffer) : Nat :=
  b.capacity

/-- Field reader `sgs_buffer_size`. -/
def sgs_buffer_size (b : SgsBuffer) : Nat :=
  b.size

/-- Reader `sgs_buffer_remaining_capacity`: `capacity - size`. -/
def sgs_buffer_remaining_capacity (b : SgsBuffer) : Nat :=
  b.capacity - b.size

/-- Successful path of `sgs_buffer_create`: `position = 0`, `size = 0`,
backing storage of `capacity` bytes (contents unspecified in C; we pick 0). -/
def sgs_buffer_create (capacity : Nat) : SgsBuffer :=
  { capacity := capacity, position := 0, size := 0
    buf := List.replicate capacity 0 }

/-- Image of `sgs_buffer_empty`: zeroes `position` and `size`, leaves the
stored bytes alone. -/
def sgs_buffer_empty (b : SgsBuffer) : SgsBuffer :=
  { b with position := 0, size := 0 }

/-- Static helper `tailpos`: `(position + size) % capacity`. -/
def tailpos (b : SgsBuffer) : Nat :=
  (b.position + b.size) % b.capacity

/-- Static helper `readable_len`: `size` when `tailpos ≥ position`
(the branch the C comments call the "not wrapped" case), else
`capacity - position`. -/
def readable_len (b : SgsBuffer) : Nat :=
  if tailpos b ≥ b.position then b.size else b.capacity - b.position

/-- Static helper `writable_len`: `capacity - tailpos` when
`tailpos ≥ position`, else `position - tailpos`. -/
def writable_len (b : SgsBuffer) : Nat :=
  if tailpos b ≥ b.position then b.capacity - tailpos b
  else b.position - tailpos b

/-- The half-open index interval `[start, start + len)`, as a list. -/
def bufRange (start len : Nat) : List Nat :=
  (List.range len).map (fun i => start + i)

/-- Backing-array indices the `memcpy` calls of `sgs_buffer_peek` read, in
copy order: nothing when the length check fails, `[position, position+len)`
on the contiguous branch, `[position, position+readable) ++ [0, len-readable)`
on the split branch. -/
def peekReadIndices (b : SgsBuffer) (len : Nat) : List Nat :=
  let readable := readable_len b
  if len > b.size then []
  else if readable ≥ len then bufRange b.position len
  else bufRange b.position readable ++ bufRange 0 (len - readable)

/-- Bytes `sgs_buffer_peek` copies into `dst`, i.e. the backing array read at
`peekReadIndices` (out-of-range reads modelled as the junk byte 0). -/
def peekBytes (b : SgsBuffer) (len : Nat) : List Nat :=
  (peekReadIndices b len).map (fun i => b.buf.getD i 0)

/-- Image of `sgs_buffer_peek buffer data len`.  Returns the `int` result and
the contents of the caller's `data` area after the call (`data` is assumed at
least `len` bytes; the copy overwrites its first `len` bytes). -/
def sgs_buffer_peek (b : SgsBuffer) (dst : List Nat) (len : Nat) :
    Int × List Nat :=
  if len > b.size then (-1, dst)
  else (0, peekBytes b len ++ dst.drop len)

/-- Image of `sgs_buffer_read`: `sgs_buffer_peek`, then on success advance
`position` by `len` mod `capacity` and decrease `size` by `len`.  Returns the
`int` result, the caller's `data` area, and the buffer after the call. -/
def sgs_buffer_read (b : SgsBuffer) (dst : List Nat) (len : Nat) :
    Int × List Nat × SgsBuffer :=
  let r := sgs_buffer_peek b dst len
  if r.1 = -1 then (-1, r.2, b)
  else
    (0, r.2,
      { b with position := (b.position + len) % b.capacity
               size := b.size - len })

/-- Overwrite `l` with `src` starting at index `start` (the image of
`memcpy(l + start, src, src.length)`); writes past the end of `l` are
dropped by `List.set`, where C would corrupt out-of-bounds memory. -/
def listSetRange (l : List Nat) (start : Nat) (src : List Nat) : List Nat :=
  match src with
  | [] => l
  | x :: xs => listSetRange (l.set start x) (start + 1) xs

/-- Backing-array indices the `memcpy` calls of `sgs_buffer_write` write, in
copy order: nothing when the capacity check fails, `[tailpos, tailpos+len)`
on the contiguous branch, `[tailpos, tailpos+writable) ++ [0, len-writable)`
on the split branch. -/
def writeWriteIndices (b : SgsBuffer) (len : Nat) : List Nat :=
  let writable := writable_len b
  if len > sgs_buffer_remaining_capacity b then []
  else if writable ≥ len then bufRange (tailpos b) len
  else bufRange (tailpos b) writable ++ bufRange 0 (len - writable)

/-- Image of `sgs_buffer_write buffer data len` with `len = data.length`:
fails (returns `-1`, C also sets `errno = ENOBUFS`) when
`len > remaining_capacity`, otherwise copies contiguously or split at the
array end and increases `size` by `len`. -/
def sgs_buffer_write (b : SgsBuffer) (data : List Nat) : Int × SgsBuffer :=
  let len := data.length
  let writable := writable_len b
  if len > sgs_buffer_remaining_capacity b then (-1, b)
  else
    let newbuf :=
      if writable ≥ len then listSetRange b.buf (tailpos b) data
      else
        listSetRange (listSetRange b.buf (tailpos b) (data.take writable))
          0 (data.drop writable)
    (0, { b with buf := newbuf, size := b.size + len })

/-- One response of the stream endpoint to a `read(fd, ptr, n)` call:
an error (`read` returned `-1`), or delivery of the listed bytes (the empty
list is `read` returning 0, i.e. end-of-stream).  A well-behaved endpoint
never delivers more bytes than the `n` requested. -/
inductive FdResult where
  | err : FdResult
  | bytes : List Nat → FdResult
deriving Repr, DecidableEq

/-- Image of the loop of `sgs_buffer_read_from_fd`, one endpoint response
consumed per iteration.  `some (r, bEnd)` means the C call returns `r` with
the buffer left in state `bEnd`; `none` means the loop did not return within
`fuel` iterations.  Mirrors the C body exactly: check `writable > 0`, issue
`read` for `writable` bytes at `tailpos`, return `-1` on error and `0` on
end-of-stream, otherwise commit `result` bytes to `size`, return the running
total on a partial transfer, else recompute `writable` and continue. -/
def readFromFdLoop (fuel : Nat) (ep : List FdResult) (b : SgsBuffer)
    (total : Nat) : Option (Int × SgsBuffer) :=
  match fuel with
  | 0 => none
  | fuel + 1 =>
    let writable := writable_len b
    if writable = 0 then some ((total : Int), b)
    else
      match ep with
      | [] => none
      | FdResult.err :: _ => some (-1, b)
      | FdResult.bytes bs :: rest =>
        if bs.length = 0 then some (0, b)
        else
          let bNext : SgsBuffer :=
            { b with buf := listSetRange b.buf (tailpos b) bs
                     size := b.size + bs.length }
          if bs.length ≠ writable then some (((total + bs.length : Nat) : Int), bNext)
          else readFromFdLoop fuel rest bNext (total + bs.length)

/-- Image of `sgs_buffer_read_from_fd` (`total` starts at 0). -/
def sgs_buffer_read_from_fd (fuel : Nat) (ep : List FdResult)
    (b : SgsBuffer) : Option (Int × SgsBuffer) :=
  readFromFdLoop fuel ep b 0

/-- One response of the stream endpoint to a `write(fd, ptr, n)` call:
an error, or acceptance of `n` bytes (at most the `n` offered for a
well-behaved endpoint). -/
inductive FdWriteResult where
  | err : FdWriteResult
  | accepted : Nat → FdWriteResult
deriving Repr, DecidableEq

/-- Image of the loop of `sgs_buffer_write_to_fd`, one endpoint response per
iteration: while `readable > 0`, offer `readable` bytes from `position`,
return `-1` on error, otherwise advance `position` and shrink `size` by the
amount accepted, returning the running total on a partial transfer. -/
def writeToFdLoop (fuel : Nat) (ep : List FdWriteResult) (b : SgsBuffer)
    (total : Nat) : Option (Int × SgsBuffer) :=
  match fuel with
  | 0 => none
  | fuel + 1 =>
    let readable := readable_len b
    if readable = 0 then some ((total : Int), b)
    else
      match ep with
      | [] => none
      | FdWriteResult.err :: _ => some (-1, b)
      | FdWriteResult.accepted n :: rest =>
        let bNext : SgsBuffer :=
          { b with position := (b.position + n) % b.capacity
                   size := b.size - n }
        if n ≠ readable then some (((total + n : Nat) : Int), bNext)
        else writeToFdLoop fuel rest bNext (total + n)

/-- Image of `sgs_buffer_write_to_fd` (`total` starts at 0). -/
def sgs_buffer_write_to_fd (fuel : Nat) (ep : List FdWriteResult)
    (b : SgsBuffer) : Option (Int × SgsBuffer) :=
  writeToFdLoop fuel ep b 0

/-- One `sgs_buffer_peek` call viewed as a transformer of the pair
(buffer, caller's `dst` area): the C function copies into `dst` only and
assigns no field of the buffer struct, so the buffer component after the
call is the untouched input buffer. -/
def peekStep (st : SgsBuffer × List Nat) (len : Nat) : Int × SgsBuffer × List Nat :=
  let r := sgs_buffer_peek st.1 st.2 len
  (r.1, st.1, r.2)

/-- State of (buffer, `dst`) after `n` successive `sgs_buffer_peek` calls of
the same length with no intervening operation. -/
def peekCalls (len : Nat) : Nat → SgsBuffer × List Nat → SgsBuffer × List Nat
  | 0, st => st
  | n + 1, st => peekCalls len n (peekStep st len).2

/-!
Theorems.
-/

/-- Helper: a peek whose length check passes copies exactly `len` bytes. -/
theorem peekBytes_length (b : SgsBuffer) (len : Nat) (h : len ≤ b.size) :
    (peekBytes b len).length = len := by
  unfold peekBytes peekReadIndices bufRange
  have hnot : ¬len > b.size := by omega
  by_cases hr : readable_len b ≥ len
  · simp [hnot, hr]
  · simp [hnot, hr]
    omega

/-- C1: the claim that every operation on every reachable buffer state only
touches backing-array indices in `[0, capacity)` — and in particular that
peek on a full buffer with nonzero position stays in bounds — is FALSE of
the code.  The state below is reached by `create 4`, `write [1,2]`,
`read 2`, `write [3,4,5,6]`: a full buffer (`size = 4 = capacity`) with
`position = 2`.  There `tailpos = position`, so `readable_len` takes its
"data has not wrapped" branch and returns `size = 4` although the contiguous
run from index 2 is only 2 bytes; `peek` with `len = 4` therefore performs a
single `memcpy` from index 2 of 4 bytes, reading indices 4 and 5, both
outside `[0, 4)`. -/
theorem peek_on_full_wrapped_buffer_reads_out_of_bounds :
    (sgs_buffer_write
        (sgs_buffer_read (sgs_buffer_write (sgs_buffer_create 4) [1, 2]).2
          [0, 0] 2).2.2
        [3, 4, 5, 6]).2 =
      { capacity := 4, position := 2, size := 4, buf := [5, 6, 3, 4] } ∧
    peekReadIndices
        { capacity := 4, position := 2, size := 4, buf := [5, 6, 3, 4] } 4 =
      [2, 3, 4, 5] ∧
    sgs_buffer_capacity
        { capacity := 4, position := 2, size := 4, buf := [5, 6, 3, 4] } = 4 := by
  decide

/-- C2: the claim that `0 ≤ size ≤ capacity` and `0 ≤ position < capacity`
hold after every single operation on a freshly created buffer is FALSE of the
code.  On a full buffer `writable_len` returns `capacity - tailpos` (never
0), so a single `sgs_buffer_read_from_fd` call on `create 2` against a
well-behaved endpoint that delivers 2, 2 and then 1 bytes (each at most the
amount requested) keeps pulling past the point where the buffer is full and
leaves `size = 5 > capacity = 2`, violating `size ≤ capacity`. -/
theorem read_from_fd_breaks_size_invariant :
    (sgs_buffer_read_from_fd 10
        [FdResult.bytes [1, 2], FdResult.bytes [3, 4], FdResult.bytes [5]]
        (sgs_buffer_create 2)).map
        (fun p => (p.1, p.2.size, p.2.capacity)) =
      some (5, 5, 2) := by
  decide

/-- C3 counterexample: the claim that `read_from_fd` returns the cumulative
number of bytes transferred — returning `n`, not 0, when earlier iterations
transferred `n > 0` bytes before end-of-stream — is FALSE of the code.
From the reachable state `position = 2, size = 0, capacity = 4` (after
`create 4`, `write [1,2]`, `read 2`), an endpoint that delivers 2 bytes
(exactly the 2 requested) and then reports end-of-stream makes the call
return 0 even though 2 bytes were transferred and committed
(`size` goes from 0 to 2): the code's `if (result == 0) return 0;` discards
the running total. -/
theorem read_from_fd_returns_zero_after_transferring :
    sgs_buffer_size
        (sgs_buffer_read (sgs_buffer_write (sgs_buffer_create 4) [1, 2]).2
          [0, 0] 2).2.2 = 0 ∧
    (sgs_buffer_read_from_fd 10 [FdResult.bytes [8, 9], FdResult.bytes []]
        (sgs_buffer_read (sgs_buffer_write (sgs_buffer_create 4) [1, 2]).2
          [0, 0] 2).2.2).map
        (fun p => (p.1, p.2.size)) =
      some (0, 2) := by
  decide

/-- C5: the claim that after writing `c - k` bytes, reading them back, and
then writing `c` bytes, a read of `c` bytes returns exactly the bytes of the
second write is FALSE of the code for every `k < c` (it holds only at
`k = c`, where the position stays 0).  With `c = 4`, `k = 2`: after
`create 4`, `write [1,2]`, `read 2`, the second write `[3,4,5,6]` correctly
takes the split path (storage becomes `[5,6,3,4]`), but the read-back peek
computes `readable_len = 4`, copies 4 bytes contiguously from index 2 —
reading indices 4 and 5, outside the 4-byte array — and so returns the two
written bytes at indices 2,3 followed by two bytes of out-of-bounds memory
(junk 0 in this model), not `[3,4,5,6]`. -/
theorem wraparound_readback_is_wrong :
    (sgs_buffer_read
        (sgs_buffer_write
          (sgs_buffer_read (sgs_buffer_write (sgs_buffer_create 4) [1, 2]).2
            [0, 0] 2).2.2
          [3, 4, 5, 6]).2
        [0, 0, 0, 0] 4).1 = 0 ∧
    (sgs_buffer_read
        (sgs_buffer_write
          (sgs_buffer_read (sgs_buffer_write (sgs_buffer_create 4) [1, 2]).2
            [0, 0] 2).2.2
          [3, 4, 5, 6]).2
        [0, 0, 0, 0] 4).2.1 = [3, 4, 0, 0] ∧
    [3, 4, 0, 0] ≠ [3, 4, 5, 6] ∧
    peekReadIndices
        (sgs_buffer_write
          (sgs_buffer_read (sgs_buffer_write (sgs_buffer_create 4) [1, 2]).2
            [0, 0] 2).2.2
          [3, 4, 5, 6]).2 4 = [2, 3, 4, 5] := by
  decide

/-- Helper for the termination analysis of `sgs_buffer_read_from_fd`:
on a buffer of capacity 1 with position 0, `writable_len` is always 1
(whatever `size` is), so against a trace that keeps delivering exactly the
byte requested the loop consumes every iteration its fuel allows and never
returns. -/
theorem readFromFdLoop_cap_one_no_exit :
    ∀ fuel s buf total,
      readFromFdLoop fuel (List.replicate fuel (FdResult.bytes [7]))
        { capacity := 1, position := 0, size := s, buf := buf } total = none := by
  intro fuel
  induction fuel with
  | zero =>
    intro s buf total
    rfl
  | succ n ih =>
    intro s buf total
    rw [List.replicate_succ, readFromFdLoop]
    have ht : tailpos
        { capacity := 1, position := 0, size := s, buf := buf } = 0 := by
      simp [tailpos, Nat.mod_one]
    have hw : writable_len
        { capacity := 1, position := 0, size := s, buf := buf } = 1 := by
      simp [writable_len, ht]
    simp only [hw, ht]
    norm_num
    exact ih (s + 1) (listSetRange buf 0 [7]) (total + 1)

/-- C4: the claim that the `read_from_fd` loop always terminates — in
particular that against an endpoint always delivering exactly the requested
number of bytes it stops pulling once `size` reaches `capacity` — is FALSE
of the code.  `writable_len` never returns 0 (on a full buffer it returns
`capacity - position` instead of 0), so the `while (writable > 0)` loop
never exits through its condition and the `return total; /* buffer is
full */` line is unreachable: on a freshly created buffer of capacity 1,
however many iterations of fuel the loop is given, a greedy endpoint keeps
it running (and `size` grows without bound). -/
theorem read_from_fd_never_returns_on_greedy_endpoint (fuel : Nat) :
    sgs_buffer_read_from_fd fuel (List.replicate fuel (FdResult.bytes [7]))
      (sgs_buffer_create 1) = none := by
  have h := readFromFdLoop_cap_one_no_exit fuel 0 (List.replicate 1 0) 0
  exact h

/-- Helper: whatever the endpoint trace does, a returning run of the
`read_from_fd` loop either reports an error (`-1`), or reports 0 (the
end-of-stream / zero-writable cases, where the running total is discarded
or was zero), or reports exactly the incoming running total plus the number
of bytes committed to `size` during the run. -/
theorem readFromFdLoop_total_spec :
    ∀ fuel ep b total r bEnd,
      readFromFdLoop fuel ep b total = some (r, bEnd) →
      r = -1 ∨ r = 0 ∨
        (r = (total : Int) + ((bEnd.size : Int) - (b.size : Int)) ∧
          b.size ≤ bEnd.size) := by
  intro fuel
  induction fuel with
  | zero =>
    intro ep b total r bEnd h
    exact absurd h (by simp [readFromFdLoop])
  | succ n ih =>
    intro ep b total r bEnd h
    rw [readFromFdLoop.eq_def] at h
    simp only [] at h
    split at h
    · injection h with h
      have h1 : (total : Int) = r := congrArg Prod.fst h
      have h2 : b = bEnd := congrArg Prod.snd h
      subst h2
      right; right
      exact ⟨by omega, le_refl _⟩
    · split at h
      · exact absurd h (by simp)
      · injection h with h
        exact Or.inl (congrArg Prod.fst h : (-1 : Int) = r).symm
      · rename_i bs rest
        split at h
        · injection h with h
          exact Or.inr (Or.inl (congrArg Prod.fst h : (0 : Int) = r).symm)
        · split at h
          · injection h with h
            have h1 : ((total + bs.length : Nat) : Int) = r :=
              congrArg Prod.fst h
            have h3 : ({ b with size := b.size + bs.length, buf := listSetRange b.buf (tailpos b) bs } : SgsBuffer) = bEnd :=
              congrArg Prod.snd h
            have h2 : bEnd.size = b.size + bs.length := by
              rw [← h3]
            right; right
            constructor
            · rw [h2]
              push_cast at h1 ⊢
              omega
            · omega
          · rcases ih rest _ (total + bs.length) r bEnd h with h1 | h2 | ⟨h3, h4⟩
            · exact Or.inl h1
            · exact Or.inr (Or.inl h2)
            · have hsz : ({ b with size := b.size + bs.length, buf := listSetRange b.buf (tailpos b) bs } : SgsBuffer).size = b.size + bs.length := rfl
              rw [hsz] at h3 h4
              right; right
              constructor
              · rw [h3]
                push_cast
                ring
              · omega

/-- C3 (amended): `read_from_fd` returns the cumulative number of bytes
transferred in the call whenever it returns a value other than `-1` (error)
or `0`; a return of `0` signals that end-of-stream was reached, but — unlike
what the original claim states — it is produced even when earlier iterations
of the same call transferred `n > 0` bytes (those bytes remain committed to
`size`, only the reported total is discarded). -/
theorem read_from_fd_cumulative_total (fuel : Nat) (ep : List FdResult)
    (b : SgsBuffer) (r : Int) (bEnd : SgsBuffer)
    (h : sgs_buffer_read_from_fd fuel ep b = some (r, bEnd)) :
    r = -1 ∨ r = 0 ∨
      (r = (bEnd.size : Int) - (b.size : Int) ∧ b.size ≤ bEnd.size) := by
  rcases readFromFdLoop_total_spec fuel ep b 0 r bEnd h with h1 | h2 | ⟨h3, h4⟩
  · exact Or.inl h1
  · exact Or.inr (Or.inl h2)
  · right; right
    constructor
    · rw [h3]; push_cast; ring
    · exact h4

/-- Witness for C3 (amended): from a fresh buffer of capacity 2, an endpoint
delivering a single byte (a partial transfer) makes the call return 1, which
is exactly the size increase 1 - 0. -/
theorem read_from_fd_cumulative_total_witness :
    (1 : Int) = -1 ∨ (1 : Int) = 0 ∨
      ((1 : Int) =
          ((({ capacity := 2, position := 0, size := 1
               buf := [9, 0] } : SgsBuffer).size : Int) -
            ((sgs_buffer_create 2).size : Int)) ∧
        (sgs_buffer_create 2).size ≤
          ({ capacity := 2, position := 0, size := 1
             buf := [9, 0] } : SgsBuffer).size) :=
  read_from_fd_cumulative_total 3 [FdResult.bytes [9]] (sgs_buffer_create 2) 1
    { capacity := 2, position := 0, size := 1, buf := [9, 0] } (by decide)

/-- C8: the concrete scenario of the spec, checked step by step on the code.
Capacity 8; write "ABCDE" (`[65,…,69]`) → success, `size = 5`; read 3 →
returns "ABC", `size = 2`, `position = 3`; write "FGHIJ" (`[70,…,74]`) →
success with an internal wrap (bytes I, J land at indices 0, 1), `size = 7`;
read 7 → returns "DEFGHIJ" (`[68,…,74]`) in order. -/
theorem concrete_scenario_capacity_eight :
    sgs_buffer_write (sgs_buffer_create 8) [65, 66, 67, 68, 69] =
      (0, { capacity := 8, position := 0, size := 5
            buf := [65, 66, 67, 68, 69, 0, 0, 0] }) ∧
    sgs_buffer_read
        { capacity := 8, position := 0, size := 5
          buf := [65, 66, 67, 68, 69, 0, 0, 0] } [0, 0, 0] 3 =
      (0, [65, 66, 67],
        { capacity := 8, position := 3, size := 2
          buf := [65, 66, 67, 68, 69, 0, 0, 0] }) ∧
    sgs_buffer_write
        { capacity := 8, position := 3, size := 2
          buf := [65, 66, 67, 68, 69, 0, 0, 0] } [70, 71, 72, 73, 74] =
      (0, { capacity := 8, position := 3, size := 7
            buf := [73, 74, 67, 68, 69, 70, 71, 72] }) ∧
    sgs_buffer_read
        { capacity := 8, position := 3, size := 7
          buf := [73, 74, 67, 68, 69, 70, 71, 72] } [0, 0, 0, 0, 0, 0, 0] 7 =
      (0, [68, 69, 70, 71, 72, 73, 74],
        { capacity := 8, position := 2, size := 0
          buf := [73, 74, 67, 68, 69, 70, 71, 72] }) := by
  decide

/-- C6: `sgs_buffer_write` fails (returns `-1`) exactly when
`len > remaining_capacity`; on failure the whole buffer state — `size`,
`position` and the stored bytes — is unchanged, and on success `size` grows
by exactly `len` while `position` is untouched. -/
theorem write_full_iff_and_state (b : SgsBuffer) (data : List Nat) :
    ((sgs_buffer_write b data).1 = -1 ↔
      data.length > sgs_buffer_remaining_capacity b) ∧
    ((sgs_buffer_write b data).1 = -1 → (sgs_buffer_write b data).2 = b) ∧
    ((sgs_buffer_write b data).1 = 0 →
      (sgs_buffer_write b data).2.size = b.size + data.length ∧
      (sgs_buffer_write b data).2.position = b.position) := by
  by_cases hf : data.length > sgs_buffer_remaining_capacity b
  · simp [sgs_buffer_write, hf]
  · simp [sgs_buffer_write, hf]

/-- Witness for C6 at a concrete input: writing one byte to a fresh buffer
of capacity 2 succeeds, raising `size` from 0 to 1 and keeping `position`. -/
theorem write_full_iff_and_state_witness :
    (sgs_buffer_write (sgs_buffer_create 2) [7]).2.size =
      (sgs_buffer_create 2).size + [7].length ∧
    (sgs_buffer_write (sgs_buffer_create 2) [7]).2.position =
      (sgs_buffer_create 2).position :=
  (write_full_iff_and_state (sgs_buffer_create 2) [7]).2.2 (by decide)

/-- C7: `sgs_buffer_peek` and `sgs_buffer_read` fail (return `-1`) exactly
when `len > size`; on failure `dst` is untouched (no partial copy) and, for
`read`, the buffer (hence `size` and `position`) is unchanged. -/
theorem peek_read_insufficient_iff (b : SgsBuffer) (dst : List Nat) (len : Nat) :
    ((sgs_buffer_peek b dst len).1 = -1 ↔ len > sgs_buffer_size b) ∧
    ((sgs_buffer_read b dst len).1 = -1 ↔ len > sgs_buffer_size b) ∧
    ((sgs_buffer_peek b dst len).1 = -1 → (sgs_buffer_peek b dst len).2 = dst) ∧
    ((sgs_buffer_read b dst len).1 = -1 →
      (sgs_buffer_read b dst len).2.1 = dst ∧
      (sgs_buffer_read b dst len).2.2 = b) := by
  by_cases hf : len > b.size
  · simp [sgs_buffer_peek, sgs_buffer_read, sgs_buffer_size, hf]
  · simp [sgs_buffer_peek, sgs_buffer_read, sgs_buffer_size, hf]

/-- Witness for C7 at a concrete input: peeking 1 byte from an empty buffer
of capacity 2 fails and leaves the caller's 1-byte area untouched. -/
theorem peek_read_insufficient_iff_witness :
    (sgs_buffer_peek (sgs_buffer_create 2) [9] 1).2 = [9] :=
  (peek_read_insufficient_iff (sgs_buffer_create 2) [9] 1).2.2.1 (by decide)

/-- C9: with `len ≤ size`, every one of any number of successive peek calls
(no intervening read/write) succeeds, the bytes landing in `dst` are
identical from call to call (the state of (buffer, dst) after `n + 1` calls
equals the state after one call), and the buffer — hence `size` and
`position` — is exactly the original after each call. -/
theorem peek_idempotent (b : SgsBuffer) (dst : List Nat) (len : Nat)
    (h : len ≤ sgs_buffer_size b) (n : Nat) :
    (peekStep (peekCalls len n (b, dst)) len).1 = 0 ∧
    peekCalls len (n + 1) (b, dst) = (b, peekBytes b len ++ dst.drop len) := by
  have hsz : len ≤ b.size := h
  have hbytes : (peekBytes b len).length = len := peekBytes_length b len hsz
  have hpeek : ∀ d, sgs_buffer_peek b d len = (0, peekBytes b len ++ d.drop len) := by
    intro d
    unfold sgs_buffer_peek
    rw [if_neg (by omega)]
  have hdrop : (peekBytes b len ++ dst.drop len).drop len = dst.drop len :=
    List.drop_left' hbytes
  have hfix : peekStep (b, peekBytes b len ++ dst.drop len) len =
      (0, b, peekBytes b len ++ dst.drop len) := by
    unfold peekStep
    rw [hpeek, hdrop]
  have hfirst : peekStep (b, dst) len = (0, b, peekBytes b len ++ dst.drop len) := by
    unfold peekStep
    rw [hpeek]
  have hiter : ∀ m, peekCalls len m (b, peekBytes b len ++ dst.drop len) =
      (b, peekBytes b len ++ dst.drop len) := by
    intro m
    induction m with
    | zero => rfl
    | succ k ihk =>
      show peekCalls len k (peekStep _ len).2 = _
      rw [hfix]
      exact ihk
  constructor
  · cases n with
    | zero =>
      rw [show peekCalls len 0 (b, dst) = (b, dst) from rfl, hfirst]
    | succ m =>
      have hm : peekCalls len (m + 1) (b, dst) =
          (b, peekBytes b len ++ dst.drop len) := by
        show peekCalls len m (peekStep (b, dst) len).2 = _
        rw [hfirst]
        exact hiter m
      rw [hm, hfix]
  · show peekCalls len n (peekStep (b, dst) len).2 = _
    rw [hfirst]
    exact hiter n

/-- Witness for C9 at a concrete input: five successive peeks of 2 bytes on
a buffer holding 3 bytes all succeed, leave the buffer as it was, and leave
the same bytes in `dst`. -/
theorem peek_idempotent_witness :
    (peekStep (peekCalls 2 5
        ({ capacity := 4, position := 0, size := 3, buf := [1, 2, 3, 0] }, [9, 9]))
        2).1 = 0 ∧
    peekCalls 2 (5 + 1)
        ({ capacity := 4, position := 0, size := 3, buf := [1, 2, 3, 0] }, [9, 9]) =
      ({ capacity := 4, position := 0, size := 3, buf := [1, 2, 3, 0] },
        peekBytes { capacity := 4, position := 0, size := 3, buf := [1, 2, 3, 0] } 2 ++
          List.drop 2 [9, 9]) :=
  peek_idempotent { capacity := 4, position := 0, size := 3, buf := [1, 2, 3, 0] }
    [9, 9] 2 (by decide) 5

/-- C10: zero-length operations always succeed and change nothing: with the
`position` invariant in force, `peek` and `read` of 0 bytes return success
even on an empty buffer, a write of 0 bytes returns success even on a full
buffer, and in all three cases `size`, `position` and the stored bytes are
exactly as before. -/
theorem zero_length_ops_succeed (b : SgsBuffer) (dst : List Nat)
    (h : b.position < b.capacity) :
    sgs_buffer_peek b dst 0 = (0, dst) ∧
    sgs_buffer_read b dst 0 = (0, dst, b) ∧
    sgs_buffer_write b [] = (0, b) := by
  have hp : sgs_buffer_peek b dst 0 = (0, dst) := by
    simp [sgs_buffer_peek, peekBytes, peekReadIndices, bufRange]
  refine ⟨hp, ?_, ?_⟩
  · simp [sgs_buffer_read, hp, Nat.mod_eq_of_lt h]
  · simp [sgs_buffer_write, listSetRange]

/-- Witness for C10 at a concrete input: on a full two-byte buffer with
nonzero position, zero-length peek/read/write all succeed and leave the
state untouched. -/
theorem zero_length_ops_succeed_witness :
    sgs_buffer_peek { capacity := 2, position := 1, size := 2, buf := [5, 6] } [] 0 =
      (0, []) ∧
    sgs_buffer_read { capacity := 2, position := 1, size := 2, buf := [5, 6] } [] 0 =
      (0, [], { capacity := 2, position := 1, size := 2, buf := [5, 6] }) ∧
    sgs_buffer_write { capacity := 2, position := 1, size := 2, buf := [5, 6] } [] =
      (0, { capacity := 2, position := 1, size := 2, buf := [5, 6] }) :=
  zero_length_ops_succeed { capacity := 2, position := 1, size := 2, buf := [5, 6] }
    [] (by decide)
